import Mathlib

/-!
Shallow embedding of the `zoltaranwish` EOSIO contract
(src/contracts/zoltaranwish.cpp) and verification of its specification.

Machine integers are modelled as `Nat` with explicit reduction modulo
2^32 / 2^64 wherever the C++ arithmetic wraps; `int64_t` asset amounts are
`Int` and are reinterpreted as `uint64_t` (as the C++ usual arithmetic
conversions do) where the source compares or adds them to `uint64_t`
fields.  The SHA-256 primitive and the eosio name-to-string rendering are
abstract parameters of the model (an `Env`), exactly as the contract
consumes them from the platform.  Every action is a total function
`State → Except String State`: an `Except.error` models an aborted
transaction (EOSIO `check` failure), which leaves the chain state
unchanged.
-/

set_option linter.unusedVariables false

namespace Zoltaran

/-- Modulus of `uint32_t` arithmetic. -/
def U32MOD : Nat := 4294967296

/-- Modulus of `uint64_t` arithmetic. -/
def U64MOD : Nat := 18446744073709551616

/-- eosio account names are 64-bit values. -/
abbrev Name := Nat

/-- eosio::symbol — a code (what `sym.code().raw()` returns) plus a precision. -/
structure Sym where
  code : Nat
  prec : Nat
deriving DecidableEq, Repr

/-- eosio::asset — an `int64_t` amount and a symbol. -/
structure Asset where
  amount : Int
  sym : Sym
deriving DecidableEq, Repr

/-- An `int64_t` value reinterpreted as `uint64_t`, as C++ does when mixing
signed and unsigned 64-bit operands. -/
def i64u (a : Int) : Nat := (a % (18446744073709551616 : Int)).toNat

/-- The `config` singleton row. -/
structure Config where
  admin : Name
  arcade_contract : Name
  arcade_symbol : Sym
  treasury_balance : Nat
  paused : Bool
  prob_win : Nat
  prob_tokens_250 : Nat
  prob_tokens_500 : Nat
  prob_tokens_1000 : Nat
  prob_free_spin : Nat
deriving DecidableEq, Repr

/-- `config{}` — value-initialized configuration (all fields zero / false). -/
def defaultConfig : Config :=
  { admin := 0, arcade_contract := 0, arcade_symbol := ⟨0, 0⟩, treasury_balance := 0,
    paused := false, prob_win := 0, prob_tokens_250 := 0, prob_tokens_500 := 0,
    prob_tokens_1000 := 0, prob_free_spin := 0 }

/-- A `tokenconfig` row (accepted payment token). -/
structure TokenConfig where
  sym : Sym
  contract : Name
  price_per_wish : Nat
  bonus_bps : Nat
  enabled : Bool
deriving DecidableEq, Repr

/-- A `user` row. -/
structure User where
  account : Name
  purchased_wishes : Nat
  last_free_day : Nat
  total_wishes : Nat
  total_wins : Nat
  tokens_won : Nat
deriving DecidableEq, Repr

/-- A `commit` row (pending commitment). -/
structure Commit where
  id : Nat
  player : Name
  commit_hash : List Nat
  block_num : Nat
  wish_type : Nat
  timestamp : Nat
deriving DecidableEq, Repr

/-- A `gameresult` row (history). -/
structure GameResult where
  id : Nat
  player : Name
  result_code : Nat
  tokens_won : Nat
  wish_ipfs_cid : String
  timestamp : Nat
deriving DecidableEq, Repr

/-- A `leader` row (leaderboard). -/
structure Leader where
  player : Name
  wins : Nat
  tokens_won : Nat
deriving DecidableEq, Repr

/-- The `globals` singleton (auto-increment counters). -/
structure Globals where
  next_commit_id : Nat
  next_result_id : Nat
deriving DecidableEq, Repr

/-- The whole persistent state of the contract.  The `commits` list is kept
ordered by the `bytime` secondary index key (timestamp, then primary id), so
that the `cleanup` scan in by-time order is iteration from the head. -/
structure State where
  config : Option Config
  tokens : List TokenConfig
  users : List User
  commits : List Commit
  history : List GameResult
  leaderboard : List Leader
  globals : Option Globals
deriving DecidableEq, Repr

/-- Platform capabilities the contract consumes: its own account name, the
SHA-256 digest (32 bytes) and the eosio `name::to_string` rendering. -/
structure Env where
  self : Name
  sha256 : String → List Nat
  nameToStr : Name → String

/-- `multi_index::find` on a primary or secondary key: first row whose key
matches. -/
def findBy {α : Type} (key : α → Nat) (k : Nat) (l : List α) : Option α :=
  l.find? (fun x => key x == k)

/-- `multi_index::modify` through an iterator obtained by `find`: rewrite the
first row whose key matches. -/
def modifyBy {α : Type} (key : α → Nat) (k : Nat) (f : α → α) : List α → List α
  | [] => []
  | x :: rest => if key x == k then f x :: rest else x :: modifyBy key k f rest

/-- `multi_index::erase` through an iterator obtained by `find`: remove the
first row whose key matches. -/
def eraseBy {α : Type} (key : α → Nat) (k : Nat) : List α → List α
  | [] => []
  | x :: rest => if key x == k then rest else x :: eraseBy key k rest

/-- Insertion into the by-time ordering (timestamp, then id). -/
def insertByTime (c : Commit) : List Commit → List Commit
  | [] => [c]
  | d :: rest =>
    if c.timestamp < d.timestamp ∨ (c.timestamp = d.timestamp ∧ c.id < d.id) then
      c :: d :: rest
    else
      d :: insertByTime c rest

-- =========== Contract constants ===========

def OUTCOME_WISH_GRANTED : Nat := 0
def OUTCOME_TOKENS_250 : Nat := 1
def OUTCOME_TOKENS_500 : Nat := 2
def OUTCOME_TOKENS_1000 : Nat := 3
def OUTCOME_FREE_SPIN : Nat := 4
def OUTCOME_TRY_AGAIN : Nat := 5

def TOKENS_250 : Nat := 25000000000
def TOKENS_500 : Nat := 50000000000
def TOKENS_1000 : Nat := 100000000000

def WISH_TYPE_FREE : Nat := 0
def WISH_TYPE_PURCHASED : Nat := 1

def COMMIT_EXPIRY_SECONDS : Nat := 3600

/-- `current_time_point().sec_since_epoch()` is a `uint32_t`; the model takes
the wall clock `now : Nat` (seconds) as an action input and truncates. -/
def sec (now : Nat) : Nat := now % U32MOD

/-- `current_block()` — approximated in the source as seconds since epoch
divided by 2. -/
def current_block (now : Nat) : Nat := sec now / 2

/-- `current_day_number()` — seconds since epoch divided by 86400. -/
def current_day_number (now : Nat) : Nat := sec now / 86400

-- =========== Outcome resolver ===========

/-- The pseudo-random draw of `reveal`: SHA-256 over
`client_secret + to_string(tapos) + player.to_string()`, first four digest
bytes read big-endian, reduced modulo 10000. -/
def drawOf (env : Env) (client_secret : String) (tapos : Nat) (player : Name) : Nat :=
  let rng_input := client_secret ++ toString tapos ++ env.nameToStr player
  let h := env.sha256 rng_input
  ((h.getD 0 0) % 256 * 16777216 + (h.getD 1 0) % 256 * 65536 +
   (h.getD 2 0) % 256 * 256 + (h.getD 3 0) % 256) % 10000

/-- The probability-bucket walk of `reveal`: the running `cumulative` counter
is a `uint32_t`, so every addition is reduced modulo 2^32.  Returns the
outcome code and the token reward. -/
def outcomePick (conf : Config) (random_value : Nat) : Nat × Nat :=
  let cum1 := conf.prob_win % U32MOD
  if random_value < cum1 then (OUTCOME_WISH_GRANTED, 0)
  else
    let cum2 := (cum1 + conf.prob_tokens_250) % U32MOD
    if random_value < cum2 then (OUTCOME_TOKENS_250, TOKENS_250)
    else
      let cum3 := (cum2 + conf.prob_tokens_500) % U32MOD
      if random_value < cum3 then (OUTCOME_TOKENS_500, TOKENS_500)
      else
        let cum4 := (cum3 + conf.prob_tokens_1000) % U32MOD
        if random_value < cum4 then (OUTCOME_TOKENS_1000, TOKENS_1000)
        else
          let cum5 := (cum4 + conf.prob_free_spin) % U32MOD
          if random_value < cum5 then (OUTCOME_FREE_SPIN, 0)
          else (OUTCOME_TRY_AGAIN, 0)

/-- The full outcome resolver of `reveal`: draw, outcome code, reward. -/
def resolveOutcome (env : Env) (client_secret : String) (tapos : Nat) (player : Name)
    (conf : Config) : Nat × Nat × Nat :=
  let rv := drawOf env client_secret tapos player
  let oc := outcomePick conf rv
  (rv, oc.1, oc.2)

-- =========== std::stoul model ===========

/-- Characters accepted as whitespace by `std::stoul` (via `isspace`). -/
def isSpaceChar (c : Char) : Bool :=
  c == ' ' || c == '\t' || c == '\n' || c == '\r' || c == '\x0b' || c == '\x0c'

/-- Model of `std::stoul(str)` (base 10) on the contract's wasm32 (ILP32)
target, where `unsigned long` is 32 bits: skip leading whitespace, an
optional sign, then at least one decimal digit (trailing garbage ignored);
`none` models a thrown exception (`invalid_argument` when there are no
digits, `out_of_range` when the parsed magnitude exceeds `ULONG_MAX` =
2^32 - 1); a negative in-range input wraps modulo 2^32 as `strtoul`
specifies. -/
def stoulModel (str : String) : Option Nat :=
  let cs := str.toList.dropWhile isSpaceChar
  let negStr : Bool := cs.head? = some ('-')
  let cs2 := if cs.head? = some ('-') ∨ cs.head? = some ('+') then cs.tail else cs
  let digits := cs2.takeWhile Char.isDigit
  if digits.isEmpty then none
  else
    let v := digits.foldl (fun acc c => acc * 10 + (c.toNat - 48)) 0
    if v < U32MOD then some (if negStr then (U32MOD - v) % U32MOD else v) else none

-- =========== Actions ===========

/-- ACTION `setconfig`. -/
def setconfig (env : Env) (s : State) (auths : List Name) (admin arcade_contract : Name)
    (arcade_symbol : Sym)
    (prob_win prob_tokens_250 prob_tokens_500 prob_tokens_1000 prob_free_spin : Nat) :
    Except String State :=
  if env.self ∈ auths then
    let w0 := prob_win % U32MOD
    let w1 := prob_tokens_250 % U32MOD
    let w2 := prob_tokens_500 % U32MOD
    let w3 := prob_tokens_1000 % U32MOD
    let w4 := prob_free_spin % U32MOD
    if (w0 + w1 + w2 + w3 + w4) % U32MOD ≤ 10000 then
      let conf := s.config.getD defaultConfig
      .ok { s with config := some { conf with
              admin := admin, arcade_contract := arcade_contract,
              arcade_symbol := arcade_symbol, paused := false,
              prob_win := w0, prob_tokens_250 := w1, prob_tokens_500 := w2,
              prob_tokens_1000 := w3, prob_free_spin := w4 } }
    else .error "Probabilities exceed 100%"
  else .error "missing authority"

/-- ACTION `settoken`. -/
def settoken (env : Env) (s : State) (auths : List Name) (sym : Sym) (token_contract : Name)
    (price_per_wish : Nat) (bonus_bps : Nat) (enabled : Bool) : Except String State :=
  match s.config with
  | none => .error "Contract not configured"
  | some conf =>
    if conf.admin ∈ auths then
      let price := price_per_wish % U64MOD
      let bonus := bonus_bps % 65536
      match findBy (fun t => t.sym.code) sym.code s.tokens with
      | none =>
        .ok { s with tokens := s.tokens ++
          [{ sym := sym, contract := token_contract, price_per_wish := price,
             bonus_bps := bonus, enabled := enabled }] }
      | some _ =>
        let upd := fun (t : TokenConfig) =>
          { t with contract := token_contract, price_per_wish := price,
                   bonus_bps := bonus, enabled := enabled }
        .ok { s with tokens := modifyBy (fun t => t.sym.code) sym.code upd s.tokens }
    else .error "missing authority"

/-- ACTION `setpause`. -/
def setpause (env : Env) (s : State) (auths : List Name) (paused : Bool) : Except String State :=
  match s.config with
  | none => .error "Contract not configured"
  | some conf =>
    if conf.admin ∈ auths then
      .ok { s with config := some { conf with paused := paused } }
    else .error "missing authority"

/-- ACTION `commit`. -/
def commitAct (env : Env) (s : State) (auths : List Name) (now : Nat) (player : Name)
    (commit_hash : List Nat) (wish_type : Nat) : Except String State :=
  if player ∈ auths then
    match s.config with
    | none => .error "Contract not configured"
    | some conf =>
      if conf.paused then .error "Game is paused"
      else
        let wt := wish_type % 256
        let usersStep : Except String (List User) :=
          if wt = WISH_TYPE_FREE then
            let today := current_day_number now
            match findBy User.account player s.users with
            | none =>
              let newU : User :=
                { account := player, purchased_wishes := 0, last_free_day := today,
                  total_wishes := 0, total_wins := 0, tokens_won := 0 }
              .ok (s.users ++ [newU])
            | some u =>
              if u.last_free_day < today then
                .ok (modifyBy User.account player (fun v => { v with last_free_day := today }) s.users)
              else .error "Free wish already used today"
          else
            match findBy User.account player s.users with
            | none => .error "User not found"
            | some u =>
              if u.purchased_wishes > 0 then
                .ok (modifyBy User.account player
                  (fun v => { v with purchased_wishes := v.purchased_wishes - 1 }) s.users)
              else .error "No purchased wishes available"
        match usersStep with
        | .error e => .error e
        | .ok users1 =>
          match findBy Commit.player player s.commits with
          | some _ => .error "You have a pending commit - reveal or wait for expiry"
          | none =>
            let glob := s.globals.getD { next_commit_id := 1, next_result_id := 1 }
            let c : Commit :=
              { id := glob.next_commit_id, player := player, commit_hash := commit_hash,
                block_num := current_block now, wish_type := wt, timestamp := sec now }
            let glob1 : Globals := { glob with next_commit_id := (glob.next_commit_id + 1) % U64MOD }
            .ok { s with users := users1, commits := insertByTime c s.commits, globals := some glob1 }
  else .error "missing authority"

/-- `update_leaderboard` helper. -/
def update_leaderboard (lb : List Leader) (player : Name) (wins_delta tokens_delta : Nat) :
    List Leader :=
  match findBy Leader.player player lb with
  | none => lb ++ [{ player := player, wins := wins_delta % U32MOD,
                     tokens_won := tokens_delta % U64MOD }]
  | some _ =>
    let upd := fun (l : Leader) =>
      { l with wins := (l.wins + wins_delta) % U32MOD,
               tokens_won := (l.tokens_won + tokens_delta) % U64MOD }
    modifyBy Leader.player player upd lb

/-- ACTION `reveal`.  `tapos` is the `tapos_block_prefix()` of the executing
transaction, an action input of the model. -/
def revealAct (env : Env) (s : State) (auths : List Name) (now tapos : Nat) (player : Name)
    (commit_id : Nat) (client_secret wish_ipfs_cid : String) : Except String State :=
  if player ∈ auths then
    match s.config with
    | none => .error "Contract not configured"
    | some conf =>
      if conf.paused then .error "Game is paused"
      else
        match findBy Commit.id commit_id s.commits with
        | none => .error "Commit not found"
        | some cm =>
          if cm.player = player then
            if current_block now > cm.block_num then
              if cm.commit_hash = env.sha256 (client_secret ++ wish_ipfs_cid) then
                let r := resolveOutcome env client_secret (tapos % U32MOD) player conf
                let result_code := r.2.1
                let tokens_won := r.2.2
                let users1 :=
                  match findBy User.account player s.users with
                  | none => s.users ++
                      [{ account := player,
                         purchased_wishes := if result_code = OUTCOME_FREE_SPIN then 1 else 0,
                         last_free_day := 0, total_wishes := 1,
                         total_wins := if result_code = OUTCOME_WISH_GRANTED then 1 else 0,
                         tokens_won := tokens_won % U64MOD }]
                  | some _ => modifyBy User.account player (fun u =>
                      { u with
                        total_wishes := (u.total_wishes + 1) % U32MOD,
                        total_wins := if result_code = OUTCOME_WISH_GRANTED then
                            (u.total_wins + 1) % U32MOD else u.total_wins,
                        purchased_wishes := if result_code = OUTCOME_FREE_SPIN then
                            (u.purchased_wishes + 1) % U32MOD else u.purchased_wishes,
                        tokens_won := (u.tokens_won + tokens_won) % U64MOD }) s.users
                let lb1 :=
                  if result_code = OUTCOME_WISH_GRANTED ∨ tokens_won > 0 then
                    update_leaderboard s.leaderboard player
                      (if result_code = OUTCOME_WISH_GRANTED then 1 else 0) tokens_won
                  else s.leaderboard
                let glob := s.globals.getD { next_commit_id := 1, next_result_id := 1 }
                let g : GameResult :=
                  { id := glob.next_result_id, player := player, result_code := result_code,
                    tokens_won := tokens_won, wish_ipfs_cid := wish_ipfs_cid,
                    timestamp := sec now }
                let conf1 :=
                  if tokens_won > 0 then
                    { conf with treasury_balance :=
                        (conf.treasury_balance + U64MOD - tokens_won % U64MOD) % U64MOD }
                  else conf
                .ok { s with
                  config := some conf1,
                  users := users1,
                  leaderboard := lb1,
                  history := s.history ++ [g],
                  globals := some { glob with next_result_id := (glob.next_result_id + 1) % U64MOD },
                  commits := eraseBy Commit.id commit_id s.commits }
              else .error "Hash mismatch - invalid secret or CID"
            else .error "Must wait at least 1 block"
          else .error "Not your commit"
  else .error "missing authority"

/-- The `on_transfer` notification handler.  `first_receiver` is
`get_first_receiver()` (the token contract the notification came from). -/
def on_transfer (env : Env) (s : State) (first_receiver frm toN : Name) (quantity : Asset)
    (memo : String) : Except String State :=
  if toN ≠ env.self ∨ frm = env.self then .ok s
  else
    match s.config with
    | none => .ok s
    | some conf =>
      if first_receiver = conf.arcade_contract ∧ quantity.sym = conf.arcade_symbol ∧
         (memo = "TREASURY" ∨ memo = "treasury" ∨ memo = "fund") then
        .ok { s with config := some { conf with
          treasury_balance := (conf.treasury_balance + i64u quantity.amount) % U64MOD } }
      else
        if memo.take 7 ≠ "WISHES:" then .ok s
        else
          match stoulModel (memo.drop 7) with
          | none => .error "Invalid wish count in memo"
          | some v =>
            let wish_count := v
            if wish_count > 0 ∧ wish_count ≤ 1000 then
              match findBy (fun t => t.sym.code) quantity.sym.code s.tokens with
              | none => .error "Token not accepted"
              | some tok =>
                if tok.enabled then
                  if tok.contract = first_receiver then
                    if i64u quantity.amount ≥ (tok.price_per_wish * wish_count) % U64MOD then
                      let bonus_wishes := ((wish_count * tok.bonus_bps) % U32MOD) / 10000
                      let total_wishes := (wish_count + bonus_wishes) % U32MOD
                      match findBy User.account frm s.users with
                      | none =>
                        .ok { s with users := s.users ++
                          [{ account := frm, purchased_wishes := total_wishes,
                             last_free_day := 0, total_wishes := 0, total_wins := 0,
                             tokens_won := 0 }] }
                      | some _ =>
                        let upd := fun (u : User) =>
                          { u with purchased_wishes :=
                              (u.purchased_wishes + total_wishes) % U32MOD }
                        .ok { s with users := modifyBy User.account frm upd s.users }
                    else .error "Insufficient payment"
                  else .error "Wrong token contract"
                else .error "Token currently disabled"
            else .error "Invalid wish count"

/-- The refund applied by `cleanup` to the owner of an expired purchased
commitment: one purchased-wish credit (`uint32_t` increment). -/
def refund1 (u : User) : User :=
  { u with purchased_wishes := (u.purchased_wishes + 1) % U32MOD }

/-- One removal step of `cleanup` on the users table: refund a purchased-wish
credit when the removed commitment was purchased-sourced and its owner has a
user row; otherwise leave the table alone. -/
def refundStep (users : List User) (c : Commit) : List User :=
  if c.wish_type = WISH_TYPE_PURCHASED then
    match findBy User.account c.player users with
    | none => users
    | some _ => modifyBy User.account c.player refund1 users
  else users

/-- The scanning loop of `cleanup` over the by-time-ordered commits: the fuel
argument models `cleaned < max_clean`; the age test is `uint32_t`
subtraction, which wraps modulo 2^32. -/
def cleanupLoop (nowSec : Nat) : List User → List Commit → Nat → List User × List Commit
  | users, l, 0 => (users, l)
  | users, [], _ + 1 => (users, [])
  | users, c :: rest, m + 1 =>
    if (nowSec + U32MOD - c.timestamp % U32MOD) % U32MOD > COMMIT_EXPIRY_SECONDS then
      cleanupLoop nowSec (refundStep users c) rest m
    else (users, c :: rest)

/-- ACTION `cleanup`. -/
def cleanupAct (env : Env) (s : State) (now : Nat) (max_clean : Nat) : Except String State :=
  match s.config with
  | none => .error "Contract not configured"
  | some _ =>
    let r := cleanupLoop (sec now) s.users s.commits (max_clean % U32MOD)
    .ok { s with users := r.1, commits := r.2 }

/-- The same scan as `cleanupLoop`, splitting the commits into the removed
prefix and the kept suffix (proof companion of `cleanupLoop`). -/
def sweepSplit (nowSec : Nat) : List Commit → Nat → List Commit × List Commit
  | l, 0 => ([], l)
  | [], _ + 1 => ([], [])
  | c :: rest, m + 1 =>
    if (nowSec + U32MOD - c.timestamp % U32MOD) % U32MOD > COMMIT_EXPIRY_SECONDS then
      let r := sweepSplit nowSec rest m
      (c :: r.1, r.2)
    else ([], c :: rest)

/-- Apply the `cleanup` refunds of a list of removed commitments, oldest
first. -/
def foldRefund (users : List User) (removed : List Commit) : List User :=
  removed.foldl refundStep users

/-- ACTION `withdraw`. -/
def withdrawAct (env : Env) (s : State) (auths : List Name) (toN : Name) (quantity : Asset) :
    Except String State :=
  match s.config with
  | none => .error "Contract not configured"
  | some conf =>
    if conf.admin ∈ auths then
      if quantity.sym = conf.arcade_symbol then
        if i64u quantity.amount ≤ conf.treasury_balance then
          .ok { s with config := some { conf with
            treasury_balance :=
              (conf.treasury_balance + U64MOD - i64u quantity.amount) % U64MOD } }
        else .error "Insufficient treasury"
      else .error "Wrong token symbol"
    else .error "missing authority"

-- =========== The operation alphabet and reachability ===========

/-- One externally invokable operation with all its inputs (authorizations
carried on the transaction, wall clock, transaction entropy). -/
inductive Act where
  | setconfig (auths : List Name) (admin arcade_contract : Name) (arcade_symbol : Sym)
      (w0 w1 w2 w3 w4 : Nat)
  | settoken (auths : List Name) (sym : Sym) (token_contract : Name)
      (price_per_wish bonus_bps : Nat) (enabled : Bool)
  | setpause (auths : List Name) (paused : Bool)
  | commit (auths : List Name) (now : Nat) (player : Name) (commit_hash : List Nat)
      (wish_type : Nat)
  | reveal (auths : List Name) (now tapos : Nat) (player : Name) (commit_id : Nat)
      (client_secret wish_ipfs_cid : String)
  | transferNotify (first_receiver frm toN : Name) (quantity : Asset) (memo : String)
  | cleanup (now max_clean : Nat)
  | withdraw (auths : List Name) (toN : Name) (quantity : Asset)

/-- Dispatch one operation. -/
def step (env : Env) (s : State) : Act → Except String State
  | .setconfig auths ad ac sy w0 w1 w2 w3 w4 => setconfig env s auths ad ac sy w0 w1 w2 w3 w4
  | .settoken auths sy tc p b e => settoken env s auths sy tc p b e
  | .setpause auths p => setpause env s auths p
  | .commit auths now pl h wt => commitAct env s auths now pl h wt
  | .reveal auths now tapos pl cid sec cid2 => revealAct env s auths now tapos pl cid sec cid2
  | .transferNotify fr f t q m => on_transfer env s fr f t q m
  | .cleanup now mx => cleanupAct env s now mx
  | .withdraw auths t q => withdrawAct env s auths t q

/-- Chain-level semantics of one submitted operation: a failed `check` aborts
the transaction and leaves the state untouched. -/
def run (env : Env) (s : State) (a : Act) : State :=
  match step env s a with
  | .ok s' => s'
  | .error _ => s

/-- The contract's state at deployment: every table empty. -/
def initState : State :=
  { config := none, tokens := [], users := [], commits := [], history := [],
    leaderboard := [], globals := none }

/-- States reachable from deployment by any sequence of operations. -/
inductive Reach (env : Env) : State → Prop
  | init : Reach env initState
  | next (s s' : State) (a : Act) : Reach env s → step env s a = .ok s' → Reach env s'

/-- The paused flag as seen by the actions (`false` when unconfigured). -/
def pausedOf (s : State) : Bool := (s.config.map Config.paused).getD false

/-- The tracked treasury balance (`0` when unconfigured). -/
def treasuryOf (s : State) : Nat := (s.config.map Config.treasury_balance).getD 0

-- =========== Spec-side companions ===========

/-- The (mathematical) sum of the five configured probability weights. -/
def sumWeights (conf : Config) : Nat :=
  conf.prob_win + conf.prob_tokens_250 + conf.prob_tokens_500 +
    conf.prob_tokens_1000 + conf.prob_free_spin

/-- The bucket selection as the spec words it: walk the weights in the fixed
order granted, small, medium, large, free-respin; the draw falls into the
first bucket whose cumulative threshold strictly exceeds it, and into no-win
past every threshold.  Stated with exact (non-wrapping) cumulative sums. -/
def bucketSpecOutcome (conf : Config) (draw : Nat) : Nat × Nat :=
  if draw < conf.prob_win then (OUTCOME_WISH_GRANTED, 0)
  else if draw < conf.prob_win + conf.prob_tokens_250 then
    (OUTCOME_TOKENS_250, TOKENS_250)
  else if draw < conf.prob_win + conf.prob_tokens_250 + conf.prob_tokens_500 then
    (OUTCOME_TOKENS_500, TOKENS_500)
  else if draw < conf.prob_win + conf.prob_tokens_250 + conf.prob_tokens_500 +
      conf.prob_tokens_1000 then
    (OUTCOME_TOKENS_1000, TOKENS_1000)
  else if draw < sumWeights conf then (OUTCOME_FREE_SPIN, 0)
  else (OUTCOME_TRY_AGAIN, 0)

-- =========== Concrete instances (used to witness the theorems) ===========

/-- A concrete environment: contract account 1, a constant digest, decimal
name rendering. -/
def envC : Env :=
  { self := 1, sha256 := fun _ => List.replicate 32 0, nameToStr := fun n => toString n }

/-- A configuration whose only nonzero weight is the small token prize. -/
def confC : Config :=
  { admin := 9, arcade_contract := 2, arcade_symbol := ⟨3, 8⟩, treasury_balance := 0,
    paused := false, prob_win := 0, prob_tokens_250 := 1000, prob_tokens_500 := 0,
    prob_tokens_1000 := 0, prob_free_spin := 0 }

/-- A freshly configured state with empty tables. -/
def sConfigured : State :=
  { config := some confC, tokens := [], users := [], commits := [], history := [],
    leaderboard := [], globals := none }

def userC : User :=
  { account := 5, purchased_wishes := 0, last_free_day := 0, total_wishes := 0,
    total_wins := 0, tokens_won := 0 }

/-- A pending commitment of player 5 whose hash matches `envC`'s digest. -/
def commitC : Commit :=
  { id := 1, player := 5, commit_hash := List.replicate 32 0, block_num := 50,
    wish_type := 0, timestamp := 100 }

/-- A state in which player 5 has a pending commitment. -/
def sCommitted : State :=
  { config := some confC, tokens := [], users := [userC], commits := [commitC],
    history := [], leaderboard := [],
    globals := some { next_commit_id := 2, next_result_id := 1 } }

/-- The state after player 5's successful reveal on `sCommitted`. -/
def sRevealed : State := run envC sCommitted (.reveal [5] 102 777 5 1 "s" "c")

/-- A pending commitment whose stored hash matches no digest of `envC`. -/
def commitBadHash : Commit :=
  { id := 1, player := 5, commit_hash := [1], block_num := 50, wish_type := 0,
    timestamp := 100 }

def sBadHash : State := { sCommitted with commits := [commitBadHash] }

def confT : Config := { confC with treasury_balance := 100 }

/-- A configured state with 100 units of tracked treasury. -/
def sTreasury : State := { sConfigured with config := some confT }

/-- The state after the admin withdraws 40 units from `sTreasury`. -/
def sWithdrawn : State := run envC sTreasury (.withdraw [9] 7 { amount := 40, sym := ⟨3, 8⟩ })

def confPaused : Config := { confC with paused := true, treasury_balance := 55 }

/-- A paused state with 55 units of tracked treasury. -/
def sPaused : State := { sConfigured with config := some confPaused }

/-- The state after `setconfig` runs on the paused state. -/
def sReconfigured : State := run envC sPaused (.setconfig [1] 9 2 ⟨3, 8⟩ 2000 1000 800 200 1000)

/-- The configuration of the spec's worked scenario: weights
2000 / 1000 / 800 / 200 / 1000 over scale 10000. -/
def demoConf : Config :=
  { admin := 9, arcade_contract := 2, arcade_symbol := ⟨3, 8⟩, treasury_balance := 0,
    paused := false, prob_win := 2000, prob_tokens_250 := 1000, prob_tokens_500 := 800,
    prob_tokens_1000 := 200, prob_free_spin := 1000 }

/-- An hour-expired purchased-sourced commitment of player 5. -/
def commitExpired : Commit :=
  { id := 1, player := 5, commit_hash := [0], block_num := 0, wish_type := 1,
    timestamp := 10 }

def userP : User :=
  { account := 5, purchased_wishes := 3, last_free_day := 0, total_wishes := 0,
    total_wins := 0, tokens_won := 0 }

/-- A state holding one expired purchased commitment. -/
def sExpired : State :=
  { config := some confC, tokens := [], users := [userP], commits := [commitExpired],
    history := [], leaderboard := [], globals := none }

/-- The state after sweeping `sExpired` at time 5000. -/
def sSwept : State := run envC sExpired (.cleanup 5000 10)

/-- `initState` after a successful `setconfig`. -/
def s1C : State := run envC initState (.setconfig [1] 9 2 ⟨3, 8⟩ 0 1000 0 0 0)

/-- `s1C` after player 5's successful free commit. -/
def sC1 : State := run envC s1C (.commit [5] 100 5 (List.replicate 32 0) 0)

-- =========== Generic table lemmas ===========

lemma insertByTime_perm (c : Commit) (l : List Commit) :
    (insertByTime c l).Perm (c :: l) := by
  induction l with
  | nil => simp [insertByTime]
  | cons d rest ih =>
    unfold insertByTime
    split
    · exact List.Perm.refl _
    · exact (ih.cons d).trans (List.Perm.swap c d rest)

lemma eraseBy_sublist {α : Type} (key : α → Nat) (k : Nat) (l : List α) :
    (eraseBy key k l).Sublist l := by
  induction l with
  | nil => simp [eraseBy]
  | cons x rest ih =>
    unfold eraseBy
    split
    · exact List.sublist_cons_self x rest
    · exact ih.cons₂ x

lemma findBy_modifyBy {α : Type} (key : α → Nat) (f : α → α)
    (hf : ∀ x, key (f x) = key x) (k k' : Nat) (l : List α) :
    findBy key k' (modifyBy key k f l) =
      if k' = k then (findBy key k l).map f else findBy key k' l := by
  induction l with
  | nil => by_cases h : k' = k <;> simp [findBy, modifyBy, h]
  | cons x rest ih =>
    simp only [findBy] at ih ⊢
    unfold modifyBy
    by_cases hx : key x = k
    · rw [if_pos (by simpa using hx)]
      by_cases hk : k' = k
      · subst hk
        rw [if_pos rfl]
        rw [List.find?_cons_of_pos _ (by simp [hf x, hx]),
            List.find?_cons_of_pos _ (by simp [hx])]
        rfl
      · rw [if_neg hk]
        rw [List.find?_cons_of_neg _ (by simp only [hf x, hx, beq_iff_eq]; omega),
            List.find?_cons_of_neg _ (by simp only [hx, beq_iff_eq]; omega)]
    · rw [if_neg (by simpa using hx)]
      by_cases hxk : key x = k'
      · have hk : ¬ k' = k := by omega
        rw [if_neg hk]
        rw [List.find?_cons_of_pos _ (by simp [hxk]),
            List.find?_cons_of_pos _ (by simp [hxk])]
      · have hfalse : (key x == k') = false := by
          simp only [beq_eq_false_iff_ne, ne_eq]; exact hxk
        by_cases hk : k' = k
        · subst hk
          rw [if_pos rfl] at ih ⊢
          simp only [List.find?_cons, hfalse]
          exact ih
        · rw [if_neg hk] at ih ⊢
          simp only [List.find?_cons, hfalse]
          exact ih

-- =========== C6: the probability bucket walk ===========

/-- C6: with the configured weights 2000/1000/800/200/1000 over scale 10000,
draw 1999 is a granted wish with zero reward, draw 2000 is the small 250-token
prize, and draw 9999 is the no-win outcome; in general, for any configuration
whose weights sum to at most the scale, the bucket walk of `reveal` selects
the first bucket (in the fixed order granted, small, medium, large,
free-respin) whose cumulative threshold strictly exceeds the draw, and no-win
past all thresholds. -/
theorem C6_bucket_walk :
    (outcomePick demoConf 1999 = (OUTCOME_WISH_GRANTED, 0) ∧
     outcomePick demoConf 2000 = (OUTCOME_TOKENS_250, TOKENS_250) ∧
     outcomePick demoConf 9999 = (OUTCOME_TRY_AGAIN, 0)) ∧
    ∀ (conf : Config) (draw : Nat), sumWeights conf ≤ 10000 →
      outcomePick conf draw = bucketSpecOutcome conf draw := by
  refine ⟨⟨by decide, by decide, by decide⟩, ?_⟩
  intro conf draw h
  simp only [sumWeights] at h
  simp only [outcomePick, bucketSpecOutcome, sumWeights, U32MOD]
  split_ifs <;> first | rfl | omega

/-- Witness for C6: the general bucket characterization applied to the demo
configuration and draw 1234. -/
theorem C6_bucket_walk_witness :
    outcomePick demoConf 1234 = bucketSpecOutcome demoConf 1234 :=
  C6_bucket_walk.2 demoConf 1234 (by decide)

-- =========== C7: the setconfig weight check wraps in uint32 ===========

/-- C7 counterexample: the five weights 4294967295, 1, 0, 0, 0 have a
mathematical sum of 2^32, far above 10000, yet `setconfig` accepts them
because the `uint32_t` sum wraps to 0. -/
theorem C7_wrap_counterexample :
    4294967295 + 1 + 0 + 0 + 0 > 10000 ∧
    (setconfig envC initState [1] 9 2 ⟨3, 8⟩ 4294967295 1 0 0 0).isOk = true := by
  exact ⟨by decide, rfl⟩

/-- C7 as amended: for `uint32_t` weights, `setconfig` (under the contract's
own authority) succeeds exactly when the sum computed modulo 2^32 is at most
10000; rejection leaves the state unchanged; and whenever the mathematical
sum is at most 10000 the call succeeds. -/
theorem C7_setconfig_weights (env : Env) (s : State) (auths : List Name)
    (ad ac : Name) (sy : Sym) (w0 w1 w2 w3 w4 : Nat)
    (hauth : env.self ∈ auths)
    (h0 : w0 < U32MOD) (h1 : w1 < U32MOD) (h2 : w2 < U32MOD)
    (h3 : w3 < U32MOD) (h4 : w4 < U32MOD) :
    ((setconfig env s auths ad ac sy w0 w1 w2 w3 w4).isOk = true ↔
      (w0 + w1 + w2 + w3 + w4) % U32MOD ≤ 10000) ∧
    ((w0 + w1 + w2 + w3 + w4) % U32MOD > 10000 →
      run env s (.setconfig auths ad ac sy w0 w1 w2 w3 w4) = s) ∧
    (w0 + w1 + w2 + w3 + w4 ≤ 10000 →
      (setconfig env s auths ad ac sy w0 w1 w2 w3 w4).isOk = true) := by
  have m0 : w0 % U32MOD = w0 := Nat.mod_eq_of_lt h0
  have m1 : w1 % U32MOD = w1 := Nat.mod_eq_of_lt h1
  have m2 : w2 % U32MOD = w2 := Nat.mod_eq_of_lt h2
  have m3 : w3 % U32MOD = w3 := Nat.mod_eq_of_lt h3
  have m4 : w4 % U32MOD = w4 := Nat.mod_eq_of_lt h4
  refine ⟨?_, ?_, ?_⟩
  · simp only [setconfig, if_pos hauth, m0, m1, m2, m3, m4]
    split
    next hcond => exact iff_of_true rfl hcond
    next hcond => exact iff_of_false (by simp [Except.isOk, Except.toBool]) hcond
  · intro hgt
    simp only [run, step, setconfig, if_pos hauth, m0, m1, m2, m3, m4]
    rw [if_neg (by omega)]
  · intro hle
    have hc : (w0 + w1 + w2 + w3 + w4) % U32MOD ≤ 10000 := by
      simp only [U32MOD]; omega
    simp only [setconfig, if_pos hauth, m0, m1, m2, m3, m4]
    rw [if_pos hc]
    rfl

/-- Witness for C7's amended theorem: the demo weights (sum 5000) are
accepted on the fresh state. -/
theorem C7_setconfig_weights_witness :
    (setconfig envC initState [1] 9 2 ⟨3, 8⟩ 2000 1000 800 200 1000).isOk = true :=
  (C7_setconfig_weights envC initState [1] 9 2 ⟨3, 8⟩ 2000 1000 800 200 1000
    (by decide) (by decide) (by decide) (by decide) (by decide) (by decide)).2.2
    (by decide)

-- =========== C3: a hash-mismatched reveal fails atomically ===========

/-- C3: for a stored commitment, any reveal whose secret/content pair hashes
to anything other than the stored commitment hash fails, and the failed
transaction leaves the whole contract state exactly as it was. -/
theorem C3_reveal_hash_mismatch (env : Env) (s : State) (auths : List Name)
    (now tapos : Nat) (player : Name) (commit_id : Nat)
    (client_secret wish_ipfs_cid : String) (c : Commit)
    (hfind : findBy Commit.id commit_id s.commits = some c)
    (hne : env.sha256 (client_secret ++ wish_ipfs_cid) ≠ c.commit_hash) :
    (∃ e, revealAct env s auths now tapos player commit_id client_secret wish_ipfs_cid =
        .error e) ∧
    run env s (.reveal auths now tapos player commit_id client_secret wish_ipfs_cid) = s := by
  have herr : ∃ e,
      revealAct env s auths now tapos player commit_id client_secret wish_ipfs_cid =
        .error e := by
    unfold revealAct
    repeat' split
    all_goals first
      | exact ⟨_, rfl⟩
      | simp_all
  obtain ⟨e, he⟩ := herr
  exact ⟨⟨e, he⟩, by simp [run, step, he]⟩

/-- Witness for C3: on the stored commitment with hash `[1]`, revealing with
secret "x" and content "c" (whose digest is 32 zero bytes) is rejected and
the state is untouched. -/
theorem C3_reveal_hash_mismatch_witness :
    (∃ e, revealAct envC sBadHash [5] 102 777 5 1 "x" "c" = .error e) ∧
    run envC sBadHash (.reveal [5] 102 777 5 1 "x" "c") = sBadHash :=
  C3_reveal_hash_mismatch envC sBadHash [5] 102 777 5 1 "x" "c" commitBadHash
    (by decide) (by decide)

-- =========== C4: reveal requires a strictly later block ===========

/-- C4: for a stored commitment, a reveal can only succeed when the current
block height (seconds since epoch divided by 2) strictly exceeds the height
stored at commit time, and a reveal attempted at the same height fails with
no state change. -/
theorem C4_reveal_block_height (env : Env) (s : State) (auths : List Name)
    (now tapos : Nat) (player : Name) (commit_id : Nat)
    (client_secret wish_ipfs_cid : String) (c : Commit)
    (hfind : findBy Commit.id commit_id s.commits = some c) :
    ((revealAct env s auths now tapos player commit_id client_secret
        wish_ipfs_cid).isOk = true →
      current_block now > c.block_num) ∧
    (current_block now = c.block_num →
      (∃ e, revealAct env s auths now tapos player commit_id client_secret
          wish_ipfs_cid = .error e) ∧
      run env s (.reveal auths now tapos player commit_id client_secret
          wish_ipfs_cid) = s) := by
  constructor
  · intro hok
    unfold revealAct at hok
    repeat' split at hok
    all_goals simp_all [Except.isOk, Except.toBool]
  · intro hsame
    have herr : ∃ e,
        revealAct env s auths now tapos player commit_id client_secret wish_ipfs_cid =
          .error e := by
      unfold revealAct
      repeat' split
      all_goals first
        | exact ⟨_, rfl⟩
        | (exfalso; simp_all)
    obtain ⟨e, he⟩ := herr
    exact ⟨⟨e, he⟩, by simp [run, step, he]⟩

/-- Witness for C4: the pending commitment of `sCommitted` was created at
block 50; at wall-clock 101 (block 50 again) the reveal is rejected with no
state change, and a successful reveal indeed happens above block 50. -/
theorem C4_reveal_block_height_witness :
    ((revealAct envC sCommitted [5] 102 777 5 1 "s" "c").isOk = true →
      current_block 102 > commitC.block_num) ∧
    ((∃ e, revealAct envC sCommitted [5] 101 777 5 1 "s" "c" = .error e) ∧
      run envC sCommitted (.reveal [5] 101 777 5 1 "s" "c") = sCommitted) :=
  ⟨(C4_reveal_block_height envC sCommitted [5] 102 777 5 1 "s" "c" commitC
      (by decide)).1,
   (C4_reveal_block_height envC sCommitted [5] 101 777 5 1 "s" "c" commitC
      (by decide)).2 (by decide)⟩

-- =========== C5: the outcome resolver is pure and deterministic ===========

/-- C5: the outcome resolver is a deterministic pure function of the revealed
secret, the block-entropy value, the player identity and the five probability
weights: two configurations agreeing on the weights produce identical
(draw, outcome, reward) triples, whatever their other fields; and a
successful reveal records in the history exactly the outcome code and reward
that `resolveOutcome` computes from those inputs. -/
theorem C5_resolver_pure (env : Env) (client_secret : String) (tapos : Nat)
    (player : Name) (c1 c2 : Config)
    (h0 : c1.prob_win = c2.prob_win)
    (h1 : c1.prob_tokens_250 = c2.prob_tokens_250)
    (h2 : c1.prob_tokens_500 = c2.prob_tokens_500)
    (h3 : c1.prob_tokens_1000 = c2.prob_tokens_1000)
    (h4 : c1.prob_free_spin = c2.prob_free_spin) :
    resolveOutcome env client_secret tapos player c1 =
      resolveOutcome env client_secret tapos player c2 ∧
    ∀ (s : State) (auths : List Name) (now commit_id : Nat)
      (wish_ipfs_cid : String) (s' : State),
      revealAct env s auths now tapos player commit_id client_secret wish_ipfs_cid =
        .ok s' →
      ∃ conf g, s.config = some conf ∧ s'.history = s.history ++ [g] ∧
        g.result_code =
          (resolveOutcome env client_secret (tapos % U32MOD) player conf).2.1 ∧
        g.tokens_won =
          (resolveOutcome env client_secret (tapos % U32MOD) player conf).2.2 := by
  constructor
  · simp only [resolveOutcome, outcomePick, drawOf, h0, h1, h2, h3, h4]
  · intro s auths now commit_id wish_ipfs_cid s' hok
    simp only [revealAct] at hok
    repeat' split at hok
    all_goals try exact Except.noConfusion hok
    all_goals
      simp only [Except.ok.injEq] at hok
    all_goals
      subst hok
    all_goals
      refine ⟨_, _, ?_, rfl, rfl, rfl⟩
    all_goals assumption

/-- Witness for C5: the purity statement applied to the concrete reveal of
`sCommitted`, with both configurations equal to `confC`. -/
theorem C5_resolver_pure_witness :
    resolveOutcome envC "s" 777 5 confC = resolveOutcome envC "s" 777 5 confC ∧
    ∃ conf g, sCommitted.config = some conf ∧
      sRevealed.history = sCommitted.history ++ [g] ∧
      g.result_code = (resolveOutcome envC "s" (777 % U32MOD) 5 conf).2.1 ∧
      g.tokens_won = (resolveOutcome envC "s" (777 % U32MOD) 5 conf).2.2 :=
  ⟨(C5_resolver_pure envC "s" 777 5 confC confC rfl rfl rfl rfl rfl).1,
   (C5_resolver_pure envC "s" 777 5 confC confC rfl rfl rfl rfl rfl).2
     sCommitted [5] 102 1 "c" sRevealed rfl⟩

-- =========== C2: treasury payouts ===========

/-- C2 counterexample: on `sCommitted` the tracked treasury is 0, the reveal
pays out 25000000000 units, yet the reveal succeeds and the `uint64_t`
treasury decrement wraps around to 2^64 - 25000000000 — the payout is not
rejected when the amount exceeds the tracked balance. -/
theorem C2_reveal_payout_wraps :
    treasuryOf sCommitted = 0 ∧
    TOKENS_250 > 0 ∧
    (revealAct envC sCommitted [5] 102 777 5 1 "s" "c").isOk = true ∧
    (∃ g, sRevealed.history = sCommitted.history ++ [g] ∧ g.tokens_won = TOKENS_250) ∧
    treasuryOf sRevealed = U64MOD - TOKENS_250 := by
  exact ⟨rfl, by decide, rfl, ⟨⟨1, 5, 1, TOKENS_250, "c", 102⟩, rfl, rfl⟩, rfl⟩

/-- C2 as amended: the admin withdraw alone is balance-checked — it succeeds
only when the (uint64-reinterpreted) amount is at most the tracked treasury
balance, and then the balance decreases by exactly that amount with no
underflow.  (The reveal payout path performs no such check; see the
counterexample, where the uint64 decrement wraps modulo 2^64.) -/
theorem C2_withdraw_balance_check (env : Env) (s : State) (auths : List Name)
    (toN : Name) (quantity : Asset) (s' : State)
    (hT : treasuryOf s < U64MOD)
    (hok : withdrawAct env s auths toN quantity = .ok s') :
    i64u quantity.amount ≤ treasuryOf s ∧
    treasuryOf s' = treasuryOf s - i64u quantity.amount := by
  simp only [withdrawAct] at hok
  repeat' split at hok
  all_goals try exact Except.noConfusion hok
  simp only [Except.ok.injEq] at hok
  subst hok
  rename_i conf heqconf hauth hsym hle
  have ht : treasuryOf s = conf.treasury_balance := by simp [treasuryOf, heqconf]
  rw [ht] at hT ⊢
  refine ⟨hle, ?_⟩
  simp only [treasuryOf]
  simp only [Option.map_some', Option.getD_some]
  simp only [U64MOD] at hT ⊢
  omega

/-- Witness for C2's amended theorem: withdrawing 40 of the 100 tracked units
leaves exactly 60. -/
theorem C2_withdraw_balance_check_witness :
    i64u (40 : Int) ≤ treasuryOf sTreasury ∧
    treasuryOf sWithdrawn = treasuryOf sTreasury - i64u (40 : Int) :=
  C2_withdraw_balance_check envC sTreasury [9] 7 { amount := 40, sym := ⟨3, 8⟩ }
    sWithdrawn (by decide) rfl

-- =========== C10: setconfig silently un-pauses ===========

/-- C10: a successful `setconfig` always leaves the paused flag false —
reconfiguring a paused game un-pauses it — while carrying the tracked
treasury balance over unchanged; and across every operation of the contract,
the paused flag can only become true through a `setpause true` call. -/
theorem C10_setconfig_unpauses (env : Env) (s : State) :
    (∀ (auths : List Name) (ad ac : Name) (sy : Sym) (w0 w1 w2 w3 w4 : Nat) (s' : State),
      setconfig env s auths ad ac sy w0 w1 w2 w3 w4 = .ok s' →
      pausedOf s' = false ∧ treasuryOf s' = treasuryOf s) ∧
    (∀ (a : Act) (s' : State), step env s a = .ok s' → pausedOf s' = true →
      pausedOf s = true ∨ ∃ auths, a = Act.setpause auths true) := by
  constructor
  · intro auths ad ac sy w0 w1 w2 w3 w4 s' hok
    simp only [setconfig] at hok
    repeat' split at hok
    all_goals try exact Except.noConfusion hok
    simp only [Except.ok.injEq] at hok
    subst hok
    cases hc : s.config <;>
      simp [pausedOf, treasuryOf, hc, defaultConfig]
  · intro a s' hstep hp
    cases a with
    | setconfig auths ad ac sy w0 w1 w2 w3 w4 =>
      simp only [step, setconfig] at hstep
      repeat' split at hstep
      all_goals try exact Except.noConfusion hstep
      simp only [Except.ok.injEq] at hstep
      subst hstep
      simp [pausedOf] at hp
    | settoken auths sy tc p b e =>
      simp only [step, settoken] at hstep
      repeat' split at hstep
      all_goals try exact Except.noConfusion hstep
      all_goals
        simp only [Except.ok.injEq] at hstep
      all_goals
        subst hstep
      all_goals left
      all_goals simpa [pausedOf] using hp
    | setpause auths p =>
      simp only [step, setpause] at hstep
      repeat' split at hstep
      all_goals try exact Except.noConfusion hstep
      simp only [Except.ok.injEq] at hstep
      subst hstep
      cases p with
      | true => exact Or.inr ⟨auths, rfl⟩
      | false => simp [pausedOf] at hp
    | commit auths now pl h wt =>
      simp only [step, commitAct] at hstep
      repeat' split at hstep
      all_goals try exact Except.noConfusion hstep
      all_goals
        simp only [Except.ok.injEq] at hstep
      all_goals
        subst hstep
      all_goals left
      all_goals simpa [pausedOf] using hp
    | reveal auths now tapos pl cid cs cid2 =>
      simp only [step, revealAct] at hstep
      repeat' split at hstep
      all_goals try exact Except.noConfusion hstep
      all_goals
        simp only [Except.ok.injEq] at hstep
      all_goals
        subst hstep
      all_goals left
      all_goals simp_all [pausedOf]
    | transferNotify fr f t q m =>
      simp only [step, on_transfer] at hstep
      repeat' split at hstep
      all_goals try exact Except.noConfusion hstep
      all_goals
        simp only [Except.ok.injEq] at hstep
      all_goals
        subst hstep
      all_goals left
      all_goals simp_all [pausedOf]
    | cleanup now mx =>
      simp only [step, cleanupAct] at hstep
      repeat' split at hstep
      all_goals try exact Except.noConfusion hstep
      simp only [Except.ok.injEq] at hstep
      subst hstep
      left
      simpa [pausedOf] using hp
    | withdraw auths t q =>
      simp only [step, withdrawAct] at hstep
      repeat' split at hstep
      all_goals try exact Except.noConfusion hstep
      simp only [Except.ok.injEq] at hstep
      subst hstep
      left
      simp_all [pausedOf]

/-- Witness for C10: reconfiguring the paused state `sPaused` (treasury 55)
yields an un-paused state with treasury still 55. -/
theorem C10_setconfig_unpauses_witness :
    pausedOf sReconfigured = false ∧ treasuryOf sReconfigured = treasuryOf sPaused :=
  (C10_setconfig_unpauses envC sPaused).1 [1] 9 2 ⟨3, 8⟩ 2000 1000 800 200 1000
    sReconfigured rfl

-- =========== C8: memo routing on incoming transfers ===========

/-- C8 counterexample: the memo "hi" is neither a treasury keyword nor a
well-formed "WISHES:" purchase, yet the incoming transfer carrying it
completes successfully (the handler returns) with the contract state left
exactly unchanged — the transfer is silently accepted, not failed. -/
theorem C8_silent_memo_counterexample :
    ¬("hi" = "TREASURY" ∨ "hi" = "treasury" ∨ "hi" = "fund") ∧
    "hi".take 7 ≠ "WISHES:" ∧
    on_transfer envC sConfigured 2 7 1 { amount := 100, sym := ⟨3, 8⟩ } "hi" =
      .ok sConfigured := by
  exact ⟨by decide, by decide, rfl⟩

/-- C8 as amended: only memos beginning with "WISHES:" are validated — such a
memo fails the whole transfer when its count is unparseable (no digits, or a
magnitude past the 32-bit `unsigned long` range, both thrown by `stoul`) or
when the parsed count lies outside (0, 1000]; a memo that is neither
treasury-funding nor "WISHES:"-prefixed makes the handler accept the
transfer silently with no state change. -/
theorem C8_memo_routing (env : Env) (s : State) (first_receiver frm toN : Name)
    (quantity : Asset) (memo : String) (conf : Config)
    (hto : toN = env.self) (hfrm : frm ≠ env.self) (hconf : s.config = some conf)
    (htre : ¬(first_receiver = conf.arcade_contract ∧ quantity.sym = conf.arcade_symbol ∧
        (memo = "TREASURY" ∨ memo = "treasury" ∨ memo = "fund"))) :
    (memo.take 7 ≠ "WISHES:" →
      on_transfer env s first_receiver frm toN quantity memo = .ok s) ∧
    (memo.take 7 = "WISHES:" → stoulModel (memo.drop 7) = none →
      ∃ e, on_transfer env s first_receiver frm toN quantity memo = .error e) ∧
    (∀ v, memo.take 7 = "WISHES:" → stoulModel (memo.drop 7) = some v →
      ¬(v > 0 ∧ v ≤ 1000) →
      ∃ e, on_transfer env s first_receiver frm toN quantity memo = .error e) := by
  have hfirst : ¬(toN ≠ env.self ∨ frm = env.self) := fun h => h.elim (fun hh => hh hto) hfrm
  refine ⟨?_, ?_, ?_⟩
  · intro hw
    simp only [on_transfer, if_neg hfirst, hconf, if_neg htre, if_pos hw]
  · intro hw hparse
    simp only [on_transfer, if_neg hfirst, hconf, if_neg htre, if_neg (not_not_intro hw),
      hparse]
    exact ⟨_, rfl⟩
  · intro v hw hparse hbad
    simp only [on_transfer, if_neg hfirst, hconf, if_neg htre, if_neg (not_not_intro hw),
      hparse]
    rw [if_neg hbad]
    exact ⟨_, rfl⟩

/-- Witness for C8's amended theorem: a transfer with memo "donation" on the
configured state is silently accepted with the state unchanged, while memo
"WISHES:4294967297" (a count past the 32-bit `unsigned long` range, which
`stoul` rejects) fails the whole transfer. -/
theorem C8_memo_routing_witness :
    on_transfer envC sConfigured 99 7 1 { amount := 100, sym := ⟨3, 8⟩ } "donation" =
      .ok sConfigured ∧
    ∃ e, on_transfer envC sConfigured 99 7 1 { amount := 100, sym := ⟨3, 8⟩ }
      "WISHES:4294967297" = .error e :=
  ⟨(C8_memo_routing envC sConfigured 99 7 1 { amount := 100, sym := ⟨3, 8⟩ } "donation"
      confC rfl (by decide) rfl (by decide)).1 (by decide),
   (C8_memo_routing envC sConfigured 99 7 1 { amount := 100, sym := ⟨3, 8⟩ }
      "WISHES:4294967297" confC rfl (by decide) rfl (by decide)).2.1
     (by decide) (by decide)⟩

-- =========== C9: the expiry sweep ===========

lemma cleanupLoop_eq (nowSec : Nat) (users : List User) (l : List Commit) (m : Nat) :
    cleanupLoop nowSec users l m =
      (foldRefund users (sweepSplit nowSec l m).1, (sweepSplit nowSec l m).2) := by
  induction m generalizing users l with
  | zero => simp [cleanupLoop, sweepSplit, foldRefund]
  | succ m ih =>
    cases l with
    | nil => simp [cleanupLoop, sweepSplit, foldRefund]
    | cons c rest =>
      simp only [cleanupLoop, sweepSplit]
      split
      · rw [ih]
        rfl
      · rfl

lemma sweepSplit_append (nowSec : Nat) (l : List Commit) (m : Nat) :
    (sweepSplit nowSec l m).1 ++ (sweepSplit nowSec l m).2 = l := by
  induction m generalizing l with
  | zero => simp [sweepSplit]
  | succ m ih =>
    cases l with
    | nil => simp [sweepSplit]
    | cons c rest =>
      simp only [sweepSplit]
      split
      · simp [ih]
      · simp

lemma sweepSplit_length (nowSec : Nat) (l : List Commit) (m : Nat) :
    (sweepSplit nowSec l m).1.length ≤ m := by
  induction m generalizing l with
  | zero => simp [sweepSplit]
  | succ m ih =>
    cases l with
    | nil => simp [sweepSplit]
    | cons c rest =>
      simp only [sweepSplit]
      split
      · simpa using ih rest
      · simp

lemma sweepSplit_expired (nowSec : Nat) (l : List Commit) (m : Nat) :
    ∀ c ∈ (sweepSplit nowSec l m).1,
      (nowSec + U32MOD - c.timestamp % U32MOD) % U32MOD > COMMIT_EXPIRY_SECONDS := by
  induction m generalizing l with
  | zero => simp [sweepSplit]
  | succ m ih =>
    cases l with
    | nil => simp [sweepSplit]
    | cons c rest =>
      simp only [sweepSplit]
      split
      next hexp =>
        intro d hd
        rcases List.mem_cons.mp hd with h | h
        · subst h; exact hexp
        · exact ih rest d h
      next hexp => simp

lemma findBy_refundStep (p : Name) (users : List User) (c : Commit) :
    findBy User.account p (refundStep users c) =
      if c.player = p ∧ c.wish_type = WISH_TYPE_PURCHASED then
        (findBy User.account p users).map refund1
      else findBy User.account p users := by
  by_cases hw : c.wish_type = WISH_TYPE_PURCHASED
  · cases hfind : findBy User.account c.player users with
    | none =>
      simp only [refundStep, if_pos hw, hfind]
      by_cases hp : c.player = p
      · subst hp
        rw [if_pos ⟨rfl, hw⟩, hfind]
        rfl
      · rw [if_neg (fun h => hp h.1)]
    | some u =>
      simp only [refundStep, if_pos hw, hfind]
      rw [findBy_modifyBy User.account refund1 (fun x => rfl) c.player p users]
      by_cases hp : c.player = p
      · rw [if_pos hp.symm, if_pos ⟨hp, hw⟩, hp]
      · rw [if_neg (fun h => hp h.symm), if_neg (fun h => hp h.1)]
  · simp only [refundStep, if_neg hw]
    rw [if_neg (fun h => hw h.2)]

lemma findBy_foldRefund (p : Name) (users : List User) (removed : List Commit) :
    findBy User.account p (foldRefund users removed) =
      (findBy User.account p users).map
        (refund1^[removed.countP
          (fun c => c.player == p && c.wish_type == WISH_TYPE_PURCHASED)]) := by
  induction removed generalizing users with
  | nil => simp [foldRefund]
  | cons c rest ih =>
    have hstep : foldRefund users (c :: rest) = foldRefund (refundStep users c) rest := rfl
    rw [hstep, ih, findBy_refundStep]
    by_cases hc : c.player = p ∧ c.wish_type = WISH_TYPE_PURCHASED
    · rw [if_pos hc, Option.map_map,
        List.countP_cons_of_pos _ _ (by simp [hc.1, hc.2]),
        Function.iterate_succ]
    · rw [if_neg hc,
        List.countP_cons_of_neg _ _ (by
          simp only [Bool.and_eq_true, beq_iff_eq, not_and]
          intro h1 h2; exact hc ⟨h1, h2⟩)]

lemma sweepSplit_kept_sublist (nowSec : Nat) (l : List Commit) (m : Nat) :
    (sweepSplit nowSec l m).2.Sublist l := by
  have h := sweepSplit_append nowSec l m
  have h2 : (sweepSplit nowSec l m).2.Sublist
      ((sweepSplit nowSec l m).1 ++ (sweepSplit nowSec l m).2) :=
    List.sublist_append_right _ _
  rw [h] at h2
  exact h2

/-- C9: under monotonic ledger time (every stored timestamp at or before the
sweep's clock) and the per-player uniqueness invariant, `cleanup` removes
only commitments older than the one-hour expiry window, removes them as a
prefix of the chronological order bounded by `max_clean`, refunds exactly one
purchased-wish credit to the owner of each removed purchased-sourced
commitment, and leaves the account of every player none of whose removed
commitments was purchased-sourced (in particular free-sourced ones)
untouched. -/
theorem C9_cleanup_sweep (env : Env) (s : State) (now max_clean : Nat) (s' : State)
    (hrun : cleanupAct env s now max_clean = .ok s')
    (hts : ∀ c ∈ s.commits, c.timestamp ≤ sec now)
    (huniq : ∀ p, (s.commits.countP (fun c => c.player == p)) ≤ 1) :
    (∀ c ∈ s.commits, sec now - c.timestamp ≤ COMMIT_EXPIRY_SECONDS → c ∈ s'.commits) ∧
    ∃ k, k ≤ max_clean % U32MOD ∧ s'.commits = s.commits.drop k ∧
      (∀ c ∈ s.commits.take k, sec now - c.timestamp > COMMIT_EXPIRY_SECONDS) ∧
      (∀ c ∈ s.commits.take k, c.wish_type = WISH_TYPE_PURCHASED →
        ∀ u, findBy User.account c.player s.users = some u →
          findBy User.account c.player s'.users =
            some { u with purchased_wishes := (u.purchased_wishes + 1) % U32MOD }) ∧
      (∀ p, (∀ c ∈ s.commits.take k, c.player = p → c.wish_type ≠ WISH_TYPE_PURCHASED) →
        findBy User.account p s'.users = findBy User.account p s.users) := by
  have hsec : sec now < U32MOD := Nat.mod_lt _ (by simp [U32MOD])
  simp only [cleanupAct] at hrun
  repeat' split at hrun
  all_goals try exact Except.noConfusion hrun
  simp only [Except.ok.injEq] at hrun
  subst hrun
  simp only [cleanupLoop_eq]
  have happ := sweepSplit_append (sec now) s.commits (max_clean % U32MOD)
  have hlen := sweepSplit_length (sec now) s.commits (max_clean % U32MOD)
  have hexp := sweepSplit_expired (sec now) s.commits (max_clean % U32MOD)
  -- the removed prefix and the kept suffix
  have htake : s.commits.take (sweepSplit (sec now) s.commits (max_clean % U32MOD)).1.length =
      (sweepSplit (sec now) s.commits (max_clean % U32MOD)).1 := by
    have h0 := List.take_left (sweepSplit (sec now) s.commits (max_clean % U32MOD)).1
      (sweepSplit (sec now) s.commits (max_clean % U32MOD)).2
    rw [happ] at h0
    exact h0
  have hdrop : s.commits.drop (sweepSplit (sec now) s.commits (max_clean % U32MOD)).1.length =
      (sweepSplit (sec now) s.commits (max_clean % U32MOD)).2 := by
    have h0 := List.drop_left (sweepSplit (sec now) s.commits (max_clean % U32MOD)).1
      (sweepSplit (sec now) s.commits (max_clean % U32MOD)).2
    rw [happ] at h0
    exact h0
  have hage : ∀ c ∈ s.commits,
      ((sec now + U32MOD - c.timestamp % U32MOD) % U32MOD > COMMIT_EXPIRY_SECONDS ↔
        sec now - c.timestamp > COMMIT_EXPIRY_SECONDS) := by
    intro c hc
    have h1 : c.timestamp ≤ sec now := hts c hc
    have h2 : c.timestamp < U32MOD := lt_of_le_of_lt h1 hsec
    rw [Nat.mod_eq_of_lt h2]
    simp only [U32MOD, COMMIT_EXPIRY_SECONDS] at *
    omega
  have hremsub : (sweepSplit (sec now) s.commits (max_clean % U32MOD)).1.Sublist s.commits := by
    rw [← htake]; exact List.take_sublist _ _
  constructor
  · -- non-expired commitments survive
    intro c hc hyoung
    have hcsplit : c ∈ (sweepSplit (sec now) s.commits (max_clean % U32MOD)).1 ++
        (sweepSplit (sec now) s.commits (max_clean % U32MOD)).2 := by rw [happ]; exact hc
    rcases List.mem_append.mp hcsplit with h | h
    · exact absurd ((hage c hc).mp (hexp c h)) (by omega)
    · exact h
  · refine ⟨(sweepSplit (sec now) s.commits (max_clean % U32MOD)).1.length, hlen,
      hdrop.symm, ?_, ?_, ?_⟩
    · intro c hc
      rw [htake] at hc
      exact (hage c (hremsub.subset hc)).mp (hexp c hc)
    · intro c hc hw u hu
      rw [htake] at hc
      have hq : (fun d => d.player == c.player &&
          d.wish_type == WISH_TYPE_PURCHASED) c = true := by simp [hw]
      have hcount1 : (sweepSplit (sec now) s.commits (max_clean % U32MOD)).1.countP
          (fun d => d.player == c.player && d.wish_type == WISH_TYPE_PURCHASED) = 1 := by
        have hge : 0 < (sweepSplit (sec now) s.commits (max_clean % U32MOD)).1.countP
            (fun d => d.player == c.player && d.wish_type == WISH_TYPE_PURCHASED) :=
          List.countP_pos_iff.mpr ⟨c, hc, hq⟩
        have hle2 : (sweepSplit (sec now) s.commits (max_clean % U32MOD)).1.countP
            (fun d => d.player == c.player && d.wish_type == WISH_TYPE_PURCHASED) ≤
            (sweepSplit (sec now) s.commits (max_clean % U32MOD)).1.countP
            (fun d => d.player == c.player) := by
          apply List.countP_mono_left
          intro d hd hqd
          exact (Bool.and_elim_left hqd)
        have hle3 : (sweepSplit (sec now) s.commits (max_clean % U32MOD)).1.countP
            (fun d => d.player == c.player) ≤
            s.commits.countP (fun d => d.player == c.player) :=
          hremsub.countP_le _
        have := huniq c.player
        omega
      rw [findBy_foldRefund, hcount1, hu]
      rfl
    · intro p hnone
      have hzero : (sweepSplit (sec now) s.commits (max_clean % U32MOD)).1.countP
          (fun d => d.player == p && d.wish_type == WISH_TYPE_PURCHASED) = 0 := by
        rw [List.countP_eq_zero]
        intro d hd
        have := hnone d (by rw [htake]; exact hd)
        simp only [Bool.and_eq_true, beq_iff_eq, not_and]
        intro h1
        exact this h1
      rw [findBy_foldRefund, hzero]
      simp

/-- Witness for C9: sweeping the hour-expired purchased commitment of player
5 removes it and refunds one credit (3 becomes 4). -/
theorem C9_cleanup_sweep_witness :
    (∀ c ∈ sExpired.commits, sec 5000 - c.timestamp ≤ COMMIT_EXPIRY_SECONDS →
      c ∈ sSwept.commits) ∧
    ∃ k, k ≤ 10 % U32MOD ∧ sSwept.commits = sExpired.commits.drop k ∧
      (∀ c ∈ sExpired.commits.take k, sec 5000 - c.timestamp > COMMIT_EXPIRY_SECONDS) ∧
      (∀ c ∈ sExpired.commits.take k, c.wish_type = WISH_TYPE_PURCHASED →
        ∀ u, findBy User.account c.player sExpired.users = some u →
          findBy User.account c.player sSwept.users =
            some { u with purchased_wishes := (u.purchased_wishes + 1) % U32MOD }) ∧
      (∀ p, (∀ c ∈ sExpired.commits.take k, c.player = p →
          c.wish_type ≠ WISH_TYPE_PURCHASED) →
        findBy User.account p sSwept.users = findBy User.account p sExpired.users) :=
  C9_cleanup_sweep envC sExpired 5000 10 sSwept rfl (by decide)
    (fun p => by
      rw [show sExpired.commits = [commitExpired] from rfl,
        List.countP_cons, List.countP_nil]
      split <;> omega)

-- =========== C1: at most one live commitment per player ===========

lemma commits_countP_le_one_preserved (env : Env) (s : State) (a : Act) (s' : State)
    (hstep : step env s a = .ok s')
    (hinv : ∀ p, (s.commits.countP (fun c => c.player == p)) ≤ 1) :
    ∀ p, (s'.commits.countP (fun c => c.player == p)) ≤ 1 := by
  intro p
  cases a with
  | setconfig auths ad ac sy w0 w1 w2 w3 w4 =>
    simp only [step, setconfig] at hstep
    repeat' split at hstep
    all_goals try exact Except.noConfusion hstep
    simp only [Except.ok.injEq] at hstep
    subst hstep
    exact hinv p
  | settoken auths sy tc pr b e =>
    simp only [step, settoken] at hstep
    repeat' split at hstep
    all_goals try exact Except.noConfusion hstep
    all_goals
      simp only [Except.ok.injEq] at hstep
    all_goals
      subst hstep
    all_goals exact hinv p
  | setpause auths pz =>
    simp only [step, setpause] at hstep
    repeat' split at hstep
    all_goals try exact Except.noConfusion hstep
    simp only [Except.ok.injEq] at hstep
    subst hstep
    exact hinv p
  | commit auths now pl ch wt =>
    simp only [step, commitAct] at hstep
    repeat' split at hstep
    all_goals try exact Except.noConfusion hstep
    all_goals
      simp only [Except.ok.injEq] at hstep
    all_goals
      subst hstep
    all_goals
      have hpend : findBy Commit.player pl s.commits = none := by assumption
    all_goals
      have hzero : s.commits.countP (fun c => c.player == pl) = 0 := by
        rw [List.countP_eq_zero]
        intro c hc
        have hnf := List.find?_eq_none.mp hpend c hc
        simpa [findBy] using hnf
    all_goals
      rw [(insertByTime_perm _ s.commits).countP_eq, List.countP_cons]
    all_goals
      by_cases hp : pl = p
    all_goals first
      | (subst hp; rw [hzero]; split <;> omega)
      | simpa [hp] using hinv p
  | reveal auths now tapos pl cid cs cid2 =>
    simp only [step, revealAct] at hstep
    repeat' split at hstep
    all_goals try exact Except.noConfusion hstep
    all_goals
      simp only [Except.ok.injEq] at hstep
    all_goals
      subst hstep
    all_goals
      exact le_trans ((eraseBy_sublist Commit.id cid s.commits).countP_le _) (hinv p)
  | transferNotify fr f t q m =>
    simp only [step, on_transfer] at hstep
    repeat' split at hstep
    all_goals try exact Except.noConfusion hstep
    all_goals
      simp only [Except.ok.injEq] at hstep
    all_goals
      subst hstep
    all_goals exact hinv p
  | cleanup now mx =>
    simp only [step, cleanupAct] at hstep
    repeat' split at hstep
    all_goals try exact Except.noConfusion hstep
    simp only [Except.ok.injEq] at hstep
    subst hstep
    simp only [cleanupLoop_eq]
    exact le_trans ((sweepSplit_kept_sublist (sec now) s.commits (mx % U32MOD)).countP_le _)
      (hinv p)
  | withdraw auths t q =>
    simp only [step, withdrawAct] at hstep
    repeat' split at hstep
    all_goals try exact Except.noConfusion hstep
    simp only [Except.ok.injEq] at hstep
    subst hstep
    exact hinv p

/-- C1: in every state reachable from deployment, each player owns at most
one live commitment in the commits table, and `commit` fails whenever the
caller already has a pending commitment (looked up through the by-player
index); since only `reveal` and `cleanup` erase commitments and only `commit`
creates them, no operation sequence ever produces two simultaneous live
commitments for one player. -/
theorem C1_single_pending_commit (env : Env) (s : State) (hreach : Reach env s) :
    (∀ p, (s.commits.countP (fun c => c.player == p)) ≤ 1) ∧
    (∀ (auths : List Name) (now : Nat) (p : Name) (commit_hash : List Nat)
        (wish_type : Nat),
      (findBy Commit.player p s.commits).isSome = true →
      ∃ e, commitAct env s auths now p commit_hash wish_type = .error e) := by
  constructor
  · induction hreach with
    | init => intro p; simp [initState]
    | next s1 s2 a hr hstep ih => exact commits_countP_le_one_preserved env s1 a s2 hstep ih
  · intro auths now p ch wt hpend
    simp only [commitAct]
    repeat' split
    all_goals first
      | exact ⟨_, rfl⟩
      | simp_all

/-- Witness for C1: after a configure and one free commit from deployment,
player 5 holds exactly one pending commitment and a second commit attempt by
player 5 is rejected. -/
theorem C1_single_pending_commit_witness :
    (sC1.commits.countP (fun c => c.player == 5) ≤ 1) ∧
    (∃ e, commitAct envC sC1 [5] 200 5 (List.replicate 32 0) 0 = .error e) := by
  have hreach : Reach envC sC1 :=
    Reach.next s1C sC1 (.commit [5] 100 5 (List.replicate 32 0) 0)
      (Reach.next initState s1C (.setconfig [1] 9 2 ⟨3, 8⟩ 0 1000 0 0 0)
        Reach.init rfl)
      rfl
  exact ⟨(C1_single_pending_commit envC sC1 hreach).1 5,
    (C1_single_pending_commit envC sC1 hreach).2 [5] 200 5 (List.replicate 32 0) 0
      (by decide)⟩

end Zoltaran
